import Mathlib

/-!
# hanekawa: the chat screen (`chat/screen.go`)

A shallow embedding of `chat.Model` and its `Update` function: the transcript
(`content`), the viewport offset arithmetic (`calcExcess`, the `g` / `G` keys, the
autoscroll on a new message) and the two-state input mode (`typing`, `firstLetter`).

Conventions.
* Go `string` is `String`, `[]rune` is `List Char`, Go `int` is `Int` (no overflow is
  reachable by the arithmetic below: every quantity is a line count or a terminal size).
* `fmt.Sprintf` with `%s` / `%v` on strings is string concatenation.
* The write to the package-level channel `websockets.ChatroomChanIn` is recorded in the
  `sent` component of the result of `Update` (the blocking behaviour of the channel is
  not represented).
* `charmbracelet/lipgloss`, `bubbles/viewport`, `bubbles/textinput` and `bubbletea` are
  external dependencies of the repository; the functions of them that `screen.go` calls
  are modelled in the namespaces `lipgloss`, `viewport`, `textinput` and `tea` below,
  after the library releases that offer `viewport.New`, `textinput.New` and
  `SetCursorMode` together (bubbles v0.10 to v0.14). Key presses with the alt modifier,
  mouse and cursor-blink messages are outside the model.
* `constants.TermHeight`, `constants.TermWidth`, `headings.Title`, `statusbar.StatusLine`,
  the `joinedMessage` style and the rendering of the text input are not part of
  `screen.go`; they are the fields of `Env`.
-/

/-! ## Go standard library -/

namespace strings

/-- Go `strings.Join(elems, sep)`. -/
def Join (elems : List String) (sep : String) : String :=
  match elems with
  | [] => ""
  | e :: es => es.foldl (fun acc x => acc ++ sep ++ x) e

/-- Go `strings.ReplaceAll(s, "\r\n", "\n")`, on the characters of `s`. -/
def normalizeNewlines : List Char → List Char
  | [] => []
  | [c] => [c]
  | c :: d :: cs =>
    if c = '\r' ∧ d = '\n' then '\n' :: normalizeNewlines cs
    else c :: normalizeNewlines (d :: cs)

/-- Go `strings.Split(s, "\n")`, on the characters of `s`: always at least one piece. -/
def splitNewlines : List Char → List (List Char)
  | [] => [[]]
  | c :: cs =>
    if c = '\n' then [] :: splitNewlines cs
    else
      match splitNewlines cs with
      | [] => [[c]]
      | l :: ls => (c :: l) :: ls

end strings

/-! ## lipgloss -/

namespace lipgloss

/-- Go `lipgloss.Height(str)`: `strings.Count(str, "\n") + 1`. -/
def Height (str : String) : Int := (str.data.count '\n' : Nat) + 1

end lipgloss

/-! ## bubbletea messages -/

/-- The element type of `MessagesMsg`: the user of a backlog message. -/
structure user where
  Username : String
deriving DecidableEq

/-- The element type of `MessagesMsg`: `msg.User.Username` and `msg.Content`. -/
structure message where
  User : user
  Content : String
deriving DecidableEq

namespace tea

/-- A key press without the alt modifier: `KeyRunes` carrying its runes, or one of the
named keys. -/
inductive KeyMsg where
  | runes (rs : List Char)
  | enter
  | esc
  | backspace
  | left
  | right
  | up
  | down
  | pgup
  | pgdown
deriving DecidableEq

/-- Go `KeyMsg.String()`: the runes themselves for `KeyRunes`, else the name of the key. -/
def KeyMsg.String : KeyMsg → String
  | .runes rs => String.mk rs
  | .enter => "enter"
  | .esc => "esc"
  | .backspace => "backspace"
  | .left => "left"
  | .right => "right"
  | .up => "up"
  | .down => "down"
  | .pgup => "pgup"
  | .pgdown => "pgdown"

/-- The messages `Model.Update` switches on. -/
inductive Msg where
  | WindowSizeMsg (Width Height : Int)
  | RoomSelectedMsg (room : String)
  | MessagesMsg (msgs : List message)
  | TokenMsg (Username : String)
  | UserJoinedMsg (Username : String)
  | UserLeftMsg (Username : String)
  | NewMessageMsg (From Content : String)
  | KeyMsg (k : KeyMsg)
deriving DecidableEq

end tea

/-! ## bubbles/viewport -/

namespace viewport

/-- The fields of `viewport.Model` that scrolling reads and writes; the zero value is
the value a `chat.Model` holds before the first `WindowSizeMsg`. -/
structure Model where
  Width : Int
  Height : Int
  YOffset : Int
  YPosition : Int
  lines : List String
deriving DecidableEq

/-- Go `clamp(v, low, high)`: `min(high, max(low, v))`. -/
def clamp (v low high : Int) : Int := min high (max low v)

/-- Go `viewport.New(width, height)`. -/
def New (width height : Int) : Model :=
  { Width := width, Height := height, YOffset := 0, YPosition := 0, lines := [] }

/-- Go `maxYOffset`: `max(0, len(m.lines) - m.Height)`. -/
def Model.maxYOffset (m : Model) : Int := max 0 ((m.lines.length : Int) - m.Height)

/-- Go `AtTop`. -/
def Model.AtTop (m : Model) : Bool := decide (m.YOffset ≤ 0)

/-- Go `AtBottom`. -/
def Model.AtBottom (m : Model) : Bool := decide (m.YOffset ≥ m.maxYOffset)

/-- Go `SetYOffset(n)`: the offset is clamped into `[0, maxYOffset]`. -/
def Model.SetYOffset (m : Model) (n : Int) : Model :=
  { m with YOffset := clamp n 0 m.maxYOffset }

/-- Go `GotoBottom`. -/
def Model.GotoBottom (m : Model) : Model := m.SetYOffset m.maxYOffset

/-- Go `SetContent(s)`: normalise line endings, split into lines, and go to the bottom
only when the offset lies beyond the last line. -/
def Model.SetContent (m : Model) (s : String) : Model :=
  let m1 : Model :=
    { m with lines := (strings.splitNewlines (strings.normalizeNewlines s.data)).map String.mk }
  if m1.YOffset > (m1.lines.length : Int) - 1 then m1.GotoBottom else m1

/-- Go `ViewDown`. -/
def Model.ViewDown (m : Model) : Model :=
  if m.AtBottom then m else m.SetYOffset (m.YOffset + m.Height)

/-- Go `ViewUp`. -/
def Model.ViewUp (m : Model) : Model :=
  if m.AtTop then m else m.SetYOffset (m.YOffset - m.Height)

/-- Go `HalfViewDown`. -/
def Model.HalfViewDown (m : Model) : Model :=
  if m.AtBottom then m else m.SetYOffset (m.YOffset + Int.tdiv m.Height 2)

/-- Go `HalfViewUp`. -/
def Model.HalfViewUp (m : Model) : Model :=
  if m.AtTop then m else m.SetYOffset (m.YOffset - Int.tdiv m.Height 2)

/-- Go `LineDown(n)`. -/
def Model.LineDown (m : Model) (n : Int) : Model :=
  if m.AtBottom ∨ n = 0 then m else m.SetYOffset (m.YOffset + n)

/-- Go `LineUp(n)`. -/
def Model.LineUp (m : Model) (n : Int) : Model :=
  if m.AtTop ∨ n = 0 then m else m.SetYOffset (m.YOffset - n)

/-- Go `viewport.Model.Update` with the default key map: only key presses bound to a
scroll command change the model; every other message leaves it as it is. -/
def Model.Update (m : Model) (msg : tea.Msg) : Model :=
  match msg with
  | .KeyMsg k =>
    let s := k.String
    if s = "pgdown" ∨ s = " " ∨ s = "f" then m.ViewDown
    else if s = "pgup" ∨ s = "b" then m.ViewUp
    else if s = "d" ∨ s = "ctrl+d" then m.HalfViewDown
    else if s = "u" ∨ s = "ctrl+u" then m.HalfViewUp
    else if s = "down" ∨ s = "j" then m.LineDown 1
    else if s = "up" ∨ s = "k" then m.LineUp 1
    else m
  | _ => m

end viewport

/-! ## bubbles/textinput -/

namespace textinput

/-- The fields of `textinput.Model` that editing reads and writes. -/
structure Model where
  value : List Char
  pos : Nat
  focus : Bool
  CharLimit : Int
  Width : Int
deriving DecidableEq

/-- Go `textinput.New()`: empty, unfocused, no character limit. -/
def New : Model := { value := [], pos := 0, focus := false, CharLimit := 0, Width := 0 }

/-- Go `Value()`. -/
def Model.Value (m : Model) : String := String.mk m.value

/-- Go `setCursor(pos)`: the cursor is clamped into `[0, len(value)]`. -/
def Model.setCursor (m : Model) (pos : Nat) : Model :=
  { m with pos := min pos m.value.length }

/-- Go `SetValue(s)`: truncate to the character limit, then move the cursor to the end
when it was at the start or is now beyond the end. -/
def Model.SetValue (m : Model) (s : String) : Model :=
  let runes := s.data
  let m1 : Model :=
    if m.CharLimit > 0 ∧ (runes.length : Int) > m.CharLimit
    then { m with value := runes.take m.CharLimit.toNat }
    else { m with value := runes }
  if m1.pos = 0 ∨ m1.pos > m1.value.length then m1.setCursor m1.value.length else m1

/-- Go `Focus()`. -/
def Model.Focus (m : Model) : Model := { m with focus := true }

/-- Go `Blur()`. -/
def Model.Blur (m : Model) : Model := { m with focus := false }

/-- Go `textinput.Model.Update`: nothing happens without focus; runes are inserted at
the cursor while the value is shorter than the character limit; backspace, left and
right edit or move; every other key and message leaves value and cursor as they are. -/
def Model.Update (m : Model) (msg : tea.Msg) : Model :=
  if !m.focus then m
  else
    match msg with
    | .KeyMsg (.runes rs) =>
      if m.CharLimit ≤ 0 ∨ (m.value.length : Int) < m.CharLimit then
        let m1 : Model := { m with value := m.value.take m.pos ++ rs ++ m.value.drop m.pos }
        m1.setCursor (m.pos + rs.length)
      else m
    | .KeyMsg .backspace =>
      if m.value.length > 0 then
        let m1 : Model := { m with value := m.value.take (m.pos - 1) ++ m.value.drop m.pos }
        if m.pos > 0 then m1.setCursor (m.pos - 1) else m1
      else m
    | .KeyMsg .left => if m.pos > 0 then m.setCursor (m.pos - 1) else m
    | .KeyMsg .right => if m.pos < m.value.length then m.setCursor (m.pos + 1) else m
    | _ => m

end textinput

/-! ## chat/screen.go -/

/-- What `screen.go` reads from the packages `constants`, `headings`, `statusbar`, from
the style file (`joinedMessage.Render`) and from the renderer of the text input
(`m.input.View()`). -/
structure Env where
  TermHeight : Int
  TermWidth : Int
  Title : String → String
  StatusLine : String → String → String → String
  inputView : textinput.Model → String
  joinedMessage : String → String

/-- Go `websockets.SendMessage`, the value written to `websockets.ChatroomChanIn`. -/
structure SendMessage where
  Room : String
  Content : String
deriving DecidableEq

/-- The commands `Update` returns: none, `getLastMessagesCmd(chatName)`, `goToRoomsCmd`. -/
inductive Cmd where
  | none
  | getLastMessagesCmd (chatName : String)
  | goToRoomsCmd
deriving DecidableEq

/-- Go `chat.Model`. -/
structure Model where
  content : String
  ready : Bool
  viewport : viewport.Model
  input : textinput.Model
  typing : Bool
  firstLetter : Bool
  chatName : String
  username : String
deriving DecidableEq

/-- What one call of `Update` produces: the new model, the returned command, and the
values written to `websockets.ChatroomChanIn` during the call, in order. -/
structure Step where
  model : Model
  cmd : Cmd
  sent : List SendMessage
deriving DecidableEq

/-- Go `initialModel()`: a text input with a limit of 80 characters in a zero model. -/
def initialModel (env : Env) : Model :=
  let i := textinput.New
  let i := { i with CharLimit := 80 }
  let i := { i with Width := Int.tdiv env.TermWidth 2 }
  { content := "", ready := false,
    viewport := { Width := 0, Height := 0, YOffset := 0, YPosition := 0, lines := [] },
    input := i, typing := false, firstLetter := false, chatName := "", username := "" }

/-- Go `formatMessage`. -/
def formatMessage (msg : message) : String :=
  "[" ++ msg.User.Username ++ "] " ++ msg.Content

/-- Go `newMessageFormat`. -/
def newMessageFormat (username content : String) : String :=
  "[" ++ username ++ "] " ++ content

/-- Go `joinedFormat`. -/
def joinedFormat (env : Env) (username : String) : String :=
  env.joinedMessage (username ++ " just joined!")

/-- Go `leftFormat`. -/
def leftFormat (env : Env) (username : String) : String :=
  env.joinedMessage (username ++ " just left!")

/-- Go `joinMessages`. -/
def joinMessages (messages : List String) : String := strings.Join messages "\n"

/-- Go `Model.headerView`. -/
def Model.headerView (env : Env) (m : Model) : String := env.Title m.chatName

/-- Go `Model.footerView`. -/
def Model.footerView (env : Env) (m : Model) : String :=
  let msg := if m.typing then "INSERT (esc)" else "j↓ k↑ i(type)"
  env.StatusLine msg (env.inputView m.input) "Hanekawa🍙"

/-- Go `Model.calcExcess`. -/
def Model.calcExcess (env : Env) (m : Model) : Int :=
  let totalHeight :=
    env.TermHeight - lipgloss.Height (m.headerView env) - lipgloss.Height (m.footerView env)
  let excess := lipgloss.Height m.content - totalHeight
  excess

/-- The tail of `Update` (after the switch): the message goes to the text input when
typing, unless `firstLetter` is set, and to the viewport otherwise. -/
def Model.route (m : Model) (msg : tea.Msg) : Model :=
  if m.typing then
    if !m.firstLetter then { m with input := m.input.Update msg } else m
  else { m with viewport := m.viewport.Update msg }

/-- Go `Model.Update`. -/
def Model.Update (env : Env) (m : Model) (msg : tea.Msg) : Step :=
  match msg with
  | .WindowSizeMsg w h =>
    let headerHeight := lipgloss.Height (m.headerView env)
    let footerHeight := lipgloss.Height (m.footerView env)
    let height := headerHeight + footerHeight
    let m1 : Model :=
      if !m.ready then
        let vp := viewport.New w (h - height)
        let vp := { vp with YPosition := headerHeight }
        let vp := vp.SetContent m.content
        { m with viewport := vp, ready := true }
      else
        { m with viewport := { m.viewport with Width := w, Height := h - height } }
    { model := m1.route msg, cmd := Cmd.none, sent := [] }
  | .RoomSelectedMsg room =>
    { model := { m with chatName := room }, cmd := Cmd.getLastMessagesCmd room, sent := [] }
  | .MessagesMsg msgs =>
    let messages := msgs.map formatMessage
    let content := joinedFormat env m.username ++ "\n" ++ joinMessages messages
    let vp := m.viewport.SetContent content
    { model := { m with content := content, viewport := vp.Update msg },
      cmd := Cmd.none, sent := [] }
  | .TokenMsg username =>
    let m1 : Model := { m with username := username }
    { model := m1.route msg, cmd := Cmd.none, sent := [] }
  | .UserJoinedMsg username =>
    let content := m.content ++ "\n" ++ joinedFormat env username
    let vp := m.viewport.SetContent content
    { model := { m with content := content, viewport := vp.Update msg },
      cmd := Cmd.none, sent := [] }
  | .UserLeftMsg username =>
    let content := m.content ++ "\n" ++ leftFormat env username
    let vp := m.viewport.SetContent content
    { model := { m with content := content, viewport := vp.Update msg },
      cmd := Cmd.none, sent := [] }
  | .NewMessageMsg sender text =>
    let content := m.content ++ "\n" ++ newMessageFormat sender text
    let m1 : Model := { m with content := content, viewport := m.viewport.SetContent content }
    let vp := m1.viewport.SetYOffset (m1.calcExcess env + lipgloss.Height m1.content)
    { model := { m1 with viewport := vp.Update msg }, cmd := Cmd.none, sent := [] }
  | .KeyMsg k =>
    let s := k.String
    if s = "h" ∨ s = "H" then
      if !m.typing then { model := m, cmd := Cmd.goToRoomsCmd, sent := [] }
      else { model := m.route msg, cmd := Cmd.none, sent := [] }
    else if s = "i" then
      let m1 : Model :=
        if !m.typing then { m with typing := true, input := m.input.Focus, firstLetter := true }
        else { m with firstLetter := false }
      { model := m1.route msg, cmd := Cmd.none, sent := [] }
    else if s = "g" then
      let m1 : Model :=
        if m.typing then m else { m with viewport := { m.viewport with YOffset := 0 } }
      { model := m1.route msg, cmd := Cmd.none, sent := [] }
    else if s = "G" then
      let m1 : Model :=
        if m.typing then m
        else
          let m0 : Model := { m with viewport := { m.viewport with YOffset := 0 } }
          { m0 with viewport := { m0.viewport with YOffset := m0.calcExcess env } }
      { model := m1.route msg, cmd := Cmd.none, sent := [] }
    else if s = "esc" then
      let m1 : Model := { m with typing := false, input := m.input.Blur }
      { model := m1.route msg, cmd := Cmd.none, sent := [] }
    else if s = "enter" then
      let out : SendMessage := { Room := m.chatName, Content := m.input.Value }
      let m1 : Model := { m with input := m.input.SetValue "" }
      { model := m1.route msg, cmd := Cmd.none, sent := [out] }
    else
      let m1 : Model := { m with firstLetter := false }
      { model := m1.route msg, cmd := Cmd.none, sent := [] }

/-- Feeding a sequence of messages to `Update`, one after the other, keeping the model. -/
def Model.run (env : Env) (m : Model) (msgs : List tea.Msg) : Model :=
  msgs.foldl (fun acc msg => (acc.Update env msg).model) m

/-! ## The quantities the specification speaks of -/

/-- The live events of a room: a posted message, a user joining, a user leaving. -/
inductive LiveEvent where
  | NewMessage (From Content : String)
  | UserJoined (Username : String)
  | UserLeft (Username : String)
deriving DecidableEq

/-- The message by which a live event reaches `Update`. -/
def LiveEvent.toMsg : LiveEvent → tea.Msg
  | .NewMessage sender text => tea.Msg.NewMessageMsg sender text
  | .UserJoined username => tea.Msg.UserJoinedMsg username
  | .UserLeft username => tea.Msg.UserLeftMsg username

/-- Per-event template of the spec for a live event, without styling: `[user] text`,
`user just joined!`, `user just left!`. -/
def LiveEvent.specLine : LiveEvent → String
  | .NewMessage sender text => "[" ++ sender ++ "] " ++ text
  | .UserJoined username => username ++ " just joined!"
  | .UserLeft username => username ++ " just left!"

/-- Per-event template of the spec for a backlog message: `[user] text`. -/
def specBacklogLine (msg : message) : String :=
  "[" ++ msg.User.Username ++ "] " ++ msg.Content

/-- Visible height as the spec defines it: the terminal height minus the heights of the
header and of the footer. -/
def Model.visibleHeight (env : Env) (m : Model) : Int :=
  env.TermHeight - lipgloss.Height (m.headerView env) - lipgloss.Height (m.footerView env)

/-- Content height as the spec defines it: the number of lines of the content. -/
def Model.contentHeight (m : Model) : Int := lipgloss.Height m.content

/-- Excess as the spec defines it: `max(0, contentHeight - visibleHeight)`. -/
def Model.excess (env : Env) (m : Model) : Int :=
  max 0 (m.contentHeight - m.visibleHeight env)

/-- Offset invariant of the spec, read on the viewport itself: the offset is at
least 0 and at most `max(0, contentHeight - Height)` for the own `Height`. -/
def Model.offsetInBounds (m : Model) : Prop :=
  0 ≤ m.viewport.YOffset ∧ m.viewport.YOffset ≤ max 0 (m.contentHeight - m.viewport.Height)

/-- An environment for evaluation: a terminal of 12 rows and 80 columns, a one-line
header and footer for texts without line breaks, and no styling. -/
def plainEnv : Env :=
  { TermHeight := 12, TermWidth := 80, Title := fun s => s,
    StatusLine := fun a b c => a ++ " " ++ b ++ " " ++ c,
    inputView := fun i => String.mk i.value, joinedMessage := fun s => s }

/-- A backlog of `n` one-line messages. -/
def sampleBacklog (n : Nat) : List message :=
  List.replicate n { User := { Username := "alice" }, Content := "hi" }

/-- A ready model at the bottom of a transcript of 25 lines in a viewport of 10 rows:
the first resize, a backlog of 23 messages (24 lines with the own join line) and one
live message, which leaves the offset at 15. -/
def bottomModel : Model :=
  (initialModel plainEnv).run plainEnv
    [tea.Msg.WindowSizeMsg 80 12, tea.Msg.MessagesMsg (sampleBacklog 23),
      tea.Msg.NewMessageMsg "bob" "yo"]

/-- A model in COMPOSE mode in room `lobby` whose buffer holds `yo`: the room is
selected, `i` enters the mode, `y` and `o` are typed. -/
def composeModel : Model :=
  (initialModel plainEnv).run plainEnv
    [tea.Msg.RoomSelectedMsg "lobby", tea.Msg.KeyMsg (tea.KeyMsg.runes ['i']),
      tea.Msg.KeyMsg (tea.KeyMsg.runes ['y']), tea.Msg.KeyMsg (tea.KeyMsg.runes ['o'])]

/-- A model in COMPOSE mode in room `lobby` with an empty buffer. -/
def emptyComposeModel : Model :=
  (initialModel plainEnv).run plainEnv
    [tea.Msg.RoomSelectedMsg "lobby", tea.Msg.KeyMsg (tea.KeyMsg.runes ['i'])]

/-- A model back in VIEW mode whose buffer still holds `yo`: `composeModel` after `esc`. -/
def viewModelWithBuffer : Model :=
  composeModel.run plainEnv [tea.Msg.KeyMsg tea.KeyMsg.esc]

/-- The model `bottomModel` after a later resize to 22 terminal rows: still ready, the
offset still 15, the viewport now 20 rows high. -/
def resizedBottomModel : Model :=
  bottomModel.run plainEnv [tea.Msg.WindowSizeMsg 80 22]

/-- A ready model in a terminal resized to 4 rows (a viewport of 2 rows) with a
transcript of 4 lines, scrolled down by `j`, `j` to the last offset of that viewport. -/
def smallWindowModel : Model :=
  (initialModel plainEnv).run plainEnv
    [tea.Msg.WindowSizeMsg 80 4, tea.Msg.MessagesMsg (sampleBacklog 3),
      tea.Msg.KeyMsg (tea.KeyMsg.runes ['j']), tea.Msg.KeyMsg (tea.KeyMsg.runes ['j'])]

/-- The initial model after the first resize to the 12 rows of `plainEnv`: VIEW mode,
one line of content, 10 visible rows. -/
def shortModel : Model :=
  (initialModel plainEnv).run plainEnv [tea.Msg.WindowSizeMsg 80 12]

/-! ## Auxiliary facts -/

set_option maxRecDepth 100000

namespace strings

theorem count_normalizeNewlines (cs : List Char) :
    (normalizeNewlines cs).count (Char.ofNat 10) = cs.count (Char.ofNat 10) := by
  induction cs using normalizeNewlines.induct with
  | case1 => rfl
  | case2 c => rfl
  | case3 c d cs h ih =>
    obtain ⟨hc, hd⟩ := h
    subst hc hd
    simp only [normalizeNewlines, and_self, if_true]
    simp [List.count_cons, ih]
  | case4 c d cs h ih =>
    simp only [normalizeNewlines, h, if_false]
    simp [List.count_cons, ih]

theorem length_splitNewlines (cs : List Char) :
    (splitNewlines cs).length = cs.count (Char.ofNat 10) + 1 := by
  induction cs with
  | nil => rfl
  | cons c cs ih =>
    by_cases hc : c = Char.ofNat 10
    · subst hc
      simp [splitNewlines, ih]
    · have hc2 : ¬ (Char.ofNat 10 = c) := fun h => hc h.symm
      cases hs : splitNewlines cs with
      | nil => simp [hs] at ih
      | cons l ls =>
        rw [hs] at ih
        simp only [List.length_cons] at ih
        simp [splitNewlines, hc, hs, List.count_cons, hc2]
        omega

theorem foldl_line_append (a b : String) (rest : List String) :
    rest.foldl (fun acc x => acc ++ "\n" ++ x) (a ++ "\n" ++ b)
      = a ++ "\n" ++ rest.foldl (fun acc x => acc ++ "\n" ++ x) b := by
  induction rest generalizing b with
  | nil => rfl
  | cons r rest ih =>
    simp only [List.foldl_cons]
    rw [← ih]
    simp only [String.append_assoc]

end strings

namespace lipgloss

theorem Height_pos (s : String) : 1 ≤ Height s := by
  unfold Height
  omega

theorem Height_append_line (a b : String) : Height (a ++ "\n" ++ b) = Height a + Height b := by
  simp only [Height, String.data_append, List.count_append]
  have h : List.count (Char.ofNat 10) ("\n" : String).data = 1 := rfl
  rw [h]
  omega

end lipgloss

namespace viewport

theorem lines_length_raw (s : String) :
    (((strings.splitNewlines (strings.normalizeNewlines s.data)).map String.mk).length : Int)
      = lipgloss.Height s := by
  rw [List.length_map, strings.length_splitNewlines, strings.count_normalizeNewlines]
  unfold lipgloss.Height
  push_cast
  rfl

theorem lines_length_SetContent (m : Model) (s : String) :
    ((m.SetContent s).lines.length : Int) = lipgloss.Height s := by
  unfold Model.SetContent
  simp only
  split
  · simp only [Model.GotoBottom, Model.SetYOffset]
    exact lines_length_raw s
  · exact lines_length_raw s

theorem Height_SetContent (m : Model) (s : String) : (m.SetContent s).Height = m.Height := by
  unfold Model.SetContent
  simp only
  split <;> rfl

theorem YOffset_SetContent (m : Model) (s : String) :
    (m.SetContent s).YOffset
      = if m.YOffset > lipgloss.Height s - 1 then max 0 (lipgloss.Height s - m.Height)
        else m.YOffset := by
  unfold Model.SetContent
  simp only [lines_length_raw]
  split
  · simp only [Model.GotoBottom, Model.SetYOffset, Model.maxYOffset, lines_length_raw, clamp]
    omega
  · rfl

theorem Update_of_not_key (m : Model) (msg : tea.Msg) (h : ∀ k, msg ≠ tea.Msg.KeyMsg k) :
    m.Update msg = m := by
  cases msg with
  | KeyMsg k => exact absurd rfl (h k)
  | _ => rfl

theorem clamp_bounds (n hi : Int) (h : 0 ≤ hi) : 0 ≤ clamp n 0 hi ∧ clamp n 0 hi ≤ hi := by
  unfold clamp
  constructor
  · exact le_min h (le_max_left 0 n)
  · exact min_le_left _ _

end viewport

namespace textinput

theorem SetValue_empty_Value (i : Model) : (i.SetValue "").Value = "" := by
  unfold Model.SetValue Model.Value
  have hd : ("" : String).data = [] := rfl
  simp only [hd, List.length_nil, List.take_nil]
  split <;> split <;> rfl

theorem Update_enter_Value (i : Model) :
    (i.Update (tea.Msg.KeyMsg tea.KeyMsg.enter)).Value = i.Value := by
  unfold Model.Update
  split <;> rfl

end textinput

theorem route_content (m : Model) (msg : tea.Msg) : (m.route msg).content = m.content := by
  unfold Model.route
  split
  · split <;> rfl
  · rfl

theorem route_viewport_of_not_key (m : Model) (msg : tea.Msg)
    (h : ∀ k, msg ≠ tea.Msg.KeyMsg k) : (m.route msg).viewport = m.viewport := by
  unfold Model.route
  split
  · split <;> rfl
  · exact viewport.Update_of_not_key _ _ h

theorem calcExcess_eq_sub (env : Env) (m : Model) :
    m.calcExcess env = m.contentHeight - m.visibleHeight env := rfl

theorem content_run_live (env : Env) (hsty : ∀ s, env.joinedMessage s = s)
    (live : List LiveEvent) (m : Model) :
    (m.run env (live.map LiveEvent.toMsg)).content
      = (live.map LiveEvent.specLine).foldl (fun acc x => acc ++ "\n" ++ x) m.content := by
  induction live generalizing m with
  | nil => rfl
  | cons e live ih =>
    have hstep : ((m.Update env e.toMsg).model).content = m.content ++ "\n" ++ e.specLine := by
      cases e <;>
        simp [LiveEvent.toMsg, LiveEvent.specLine, Model.Update, joinedFormat, leftFormat,
          newMessageFormat, hsty]
    simp only [List.map_cons, Model.run, List.foldl_cons] at ih ⊢
    rw [ih, hstep]

theorem NewMessageMsg_model (env : Env) (m : Model) (sender text : String) :
    (m.Update env (tea.Msg.NewMessageMsg sender text)).model =
      { m with
        content := m.content ++ "\n" ++ newMessageFormat sender text,
        viewport :=
          (m.viewport.SetContent (m.content ++ "\n" ++ newMessageFormat sender text)).SetYOffset
            (lipgloss.Height (m.content ++ "\n" ++ newMessageFormat sender text)
                - m.visibleHeight env
              + lipgloss.Height (m.content ++ "\n" ++ newMessageFormat sender text)) } := by
  rfl

theorem NewMessageMsg_offset (env : Env) (m : Model) (sender text : String) :
    ((m.Update env (tea.Msg.NewMessageMsg sender text)).model).viewport.YOffset =
      viewport.clamp
        (lipgloss.Height (m.content ++ "\n" ++ newMessageFormat sender text)
            - m.visibleHeight env
          + lipgloss.Height (m.content ++ "\n" ++ newMessageFormat sender text))
        0
        (max 0 (lipgloss.Height (m.content ++ "\n" ++ newMessageFormat sender text)
          - m.viewport.Height)) := by
  rw [NewMessageMsg_model]
  simp only [viewport.Model.SetYOffset, viewport.Model.maxYOffset,
    viewport.lines_length_SetContent, viewport.Height_SetContent]

/-! ## The transcript (C1) -/

/-- C1, as stated, fails: after the backlog `[alice] hi` and the live event
UserJoined(`bob`) the content has three lines, not two: the `MessagesMsg` case of
`Update` puts the join line of the own user (here the empty username) before the
backlog, so the content differs from the joined templates of backlog and live events. -/
theorem transcript_own_join_line_first :
    ((initialModel plainEnv).run plainEnv
        (tea.Msg.MessagesMsg [{ User := { Username := "alice" }, Content := "hi" }]
          :: [LiveEvent.UserJoined "bob"].map LiveEvent.toMsg)).content
        = " just joined!\n[alice] hi\nbob just joined!"
      ∧ ((initialModel plainEnv).run plainEnv
          (tea.Msg.MessagesMsg [{ User := { Username := "alice" }, Content := "hi" }]
            :: [LiveEvent.UserJoined "bob"].map LiveEvent.toMsg)).content
          ≠ strings.Join
              ([({ User := { Username := "alice" }, Content := "hi" } : message)].map
                  specBacklogLine
                ++ [LiveEvent.UserJoined "bob"].map LiveEvent.specLine) "\n" := by
  decide

/-- C1 (amended): with styling taken as identity, for every model, backlog and sequence
of live events fed to `Update` after the `MessagesMsg` carrying the backlog, the content
is the line `username just joined!` of the own user, then the joined backlog, then the
templates of the live events in arrival order, all joined by single newlines; for a
non-empty backlog this is the own join line followed by the template lines of the
backlog and of the live events, none lost or reordered. -/
theorem transcript_content (env : Env) (hsty : ∀ s, env.joinedMessage s = s) (m : Model)
    (backlog : List message) (live : List LiveEvent) :
    (m.run env (tea.Msg.MessagesMsg backlog :: live.map LiveEvent.toMsg)).content
        = strings.Join ((m.username ++ " just joined!")
            :: strings.Join (backlog.map specBacklogLine) "\n"
            :: live.map LiveEvent.specLine) "\n"
      ∧ (backlog ≠ [] →
          (m.run env (tea.Msg.MessagesMsg backlog :: live.map LiveEvent.toMsg)).content
            = strings.Join ((m.username ++ " just joined!")
                :: (backlog.map specBacklogLine ++ live.map LiveEvent.specLine)) "\n") := by
  have hfm : backlog.map formatMessage = backlog.map specBacklogLine := rfl
  have h1 : (m.run env (tea.Msg.MessagesMsg backlog :: live.map LiveEvent.toMsg)).content
      = (live.map LiveEvent.specLine).foldl (fun acc x => acc ++ "\n" ++ x)
          (m.username ++ " just joined!" ++ "\n"
            ++ strings.Join (backlog.map specBacklogLine) "\n") := by
    have hrun :=
      content_run_live env hsty live ((m.Update env (tea.Msg.MessagesMsg backlog)).model)
    simp only [Model.run, List.foldl_cons] at hrun ⊢
    rw [hrun]
    simp [Model.Update, joinedFormat, joinMessages, hsty, hfm]
  refine ⟨?_, ?_⟩
  · rw [h1]
    simp [strings.Join]
  · intro hne
    rw [h1]
    cases hb : backlog.map specBacklogLine with
    | nil =>
      simp at hb
      exact absurd hb hne
    | cons b bs =>
      simp only [strings.Join, List.cons_append, List.foldl_append, List.foldl_cons]
      simp only [strings.foldl_line_append]

/-- Witness of C1 (amended): the user `carol`, the backlog `[alice] hi`, then
UserJoined(`bob`) and a message of `bob`, give four lines. -/
theorem transcript_content_witness :
    (∀ s, plainEnv.joinedMessage s = s)
      ∧ ([{ User := { Username := "alice" }, Content := "hi" }] : List message) ≠ []
      ∧ (((initialModel plainEnv).run plainEnv [tea.Msg.TokenMsg "carol"]).run plainEnv
          (tea.Msg.MessagesMsg [{ User := { Username := "alice" }, Content := "hi" }]
            :: [LiveEvent.UserJoined "bob", LiveEvent.NewMessage "bob" "yo"].map
                LiveEvent.toMsg)).content
          = "carol just joined!\n[alice] hi\nbob just joined!\n[bob] yo" :=
  ⟨fun _ => rfl, by decide,
    ((transcript_content plainEnv (fun _ => rfl)
        ((initialModel plainEnv).run plainEnv [tea.Msg.TokenMsg "carol"])
        [{ User := { Username := "alice" }, Content := "hi" }]
        [LiveEvent.UserJoined "bob", LiveEvent.NewMessage "bob" "yo"]).2 (by decide)).trans
      (by decide)⟩

/-! ## Autoscroll (C2) -/

/-- C2, as stated, fails: `resizedBottomModel` is ready and at the bottom (offset 15,
the excess of 25 lines over the 10 visible rows that `calcExcess` counts), yet after a
`NewMessageMsg` the offset is 6, the last offset of the 20-row viewport, and not the new
excess 16. Reading the visible height as the height of the viewport does not help:
`smallWindowModel` is at the last offset 2 of its 2-row viewport, and a `NewMessageMsg`
sends the offset to 0, where the last offset is 3. -/
theorem autoscroll_misses_excess :
    resizedBottomModel.ready = true
      ∧ resizedBottomModel.viewport.YOffset = resizedBottomModel.excess plainEnv
      ∧ ((resizedBottomModel.Update plainEnv
            (tea.Msg.NewMessageMsg "alice" "ok")).model).viewport.YOffset = 6
      ∧ ((resizedBottomModel.Update plainEnv
            (tea.Msg.NewMessageMsg "alice" "ok")).model).excess plainEnv = 16
      ∧ ((resizedBottomModel.Update plainEnv
            (tea.Msg.NewMessageMsg "alice" "ok")).model).viewport.YOffset
          ≠ ((resizedBottomModel.Update plainEnv
              (tea.Msg.NewMessageMsg "alice" "ok")).model).excess plainEnv
      ∧ smallWindowModel.ready = true
      ∧ smallWindowModel.viewport.YOffset
          = max 0 (smallWindowModel.contentHeight - smallWindowModel.viewport.Height)
      ∧ ((smallWindowModel.Update plainEnv
            (tea.Msg.NewMessageMsg "alice" "ok")).model).viewport.YOffset = 0
      ∧ max 0 (((smallWindowModel.Update plainEnv
            (tea.Msg.NewMessageMsg "alice" "ok")).model).contentHeight
          - ((smallWindowModel.Update plainEnv
              (tea.Msg.NewMessageMsg "alice" "ok")).model).viewport.Height) = 3 := by
  decide

/-- C2 (amended): for every ready model whose viewport height equals the visible height
`TermHeight - header - footer` that `calcExcess` uses, and whose offset is at the bottom
(offset = excess), after `Update` handles a `NewMessageMsg` the offset equals the new
excess `max(0, contentHeight - visibleHeight)`, computed on the content that now
includes the new message line. -/
theorem autoscroll_pins_bottom (env : Env) (m : Model) (sender text : String)
    (_hready : m.ready = true) (hvis : m.viewport.Height = m.visibleHeight env)
    (_hbottom : m.viewport.YOffset = m.excess env) :
    ((m.Update env (tea.Msg.NewMessageMsg sender text)).model).viewport.YOffset
      = ((m.Update env (tea.Msg.NewMessageMsg sender text)).model).excess env := by
  rw [NewMessageMsg_offset]
  have hex : ((m.Update env (tea.Msg.NewMessageMsg sender text)).model).excess env
      = max 0 (lipgloss.Height (m.content ++ "\n" ++ newMessageFormat sender text)
          - m.visibleHeight env) := by
    rw [NewMessageMsg_model]
    rfl
  rw [hex, hvis]
  have hpos := lipgloss.Height_pos (m.content ++ "\n" ++ newMessageFormat sender text)
  unfold viewport.clamp
  omega

/-- Witness of C2 (amended): at the bottom of 25 lines in 10 rows (offset 15) a new
message moves the offset to 16, the excess of the 26 lines. -/
theorem autoscroll_pins_bottom_witness :
    bottomModel.ready = true
      ∧ bottomModel.viewport.Height = bottomModel.visibleHeight plainEnv
      ∧ bottomModel.viewport.YOffset = bottomModel.excess plainEnv
      ∧ bottomModel.viewport.YOffset = 15
      ∧ ((bottomModel.Update plainEnv (tea.Msg.NewMessageMsg "alice" "ok")).model).excess
          plainEnv = 16
      ∧ ((bottomModel.Update plainEnv (tea.Msg.NewMessageMsg "alice" "ok")).model).viewport.YOffset
          = ((bottomModel.Update plainEnv (tea.Msg.NewMessageMsg "alice" "ok")).model).excess
              plainEnv :=
  ⟨by decide, by decide, by decide, by decide, by decide,
    autoscroll_pins_bottom plainEnv bottomModel "alice" "ok" (by decide) (by decide)
      (by decide)⟩

/-! ## The offset invariant (C3) -/

/-- C3, as stated, fails: `bottomModel` (25 lines, 10 rows, offset 15) is within bounds;
a later `WindowSizeMsg` to 30 terminal rows only overwrites the viewport height, and a
`MessagesMsg` with a backlog of 19 messages re-binds 20 lines without moving an offset
that still points inside the content; both leave the offset at 15, above the excess
(0 and 10). -/
theorem offset_exceeds_excess :
    (0 ≤ bottomModel.viewport.YOffset
        ∧ bottomModel.viewport.YOffset
            ≤ max 0 (bottomModel.contentHeight - bottomModel.viewport.Height))
      ∧ ((bottomModel.Update plainEnv (tea.Msg.WindowSizeMsg 80 30)).model).viewport.YOffset = 15
      ∧ max 0 (((bottomModel.Update plainEnv (tea.Msg.WindowSizeMsg 80 30)).model).contentHeight
          - ((bottomModel.Update plainEnv (tea.Msg.WindowSizeMsg 80 30)).model).viewport.Height)
          = 0
      ∧ ¬ ((bottomModel.Update plainEnv (tea.Msg.WindowSizeMsg 80 30)).model).offsetInBounds
      ∧ ((bottomModel.Update plainEnv
            (tea.Msg.MessagesMsg (sampleBacklog 19))).model).viewport.YOffset = 15
      ∧ ((bottomModel.Update plainEnv (tea.Msg.MessagesMsg (sampleBacklog 19))).model).excess
          plainEnv = 10
      ∧ ¬ ((bottomModel.Update plainEnv
            (tea.Msg.MessagesMsg (sampleBacklog 19))).model).offsetInBounds := by
  simp only [Model.offsetInBounds]
  decide

/-- C3 (amended): for every model, the offset satisfies
`0 ≤ YOffset ≤ max(0, contentHeight - Height)` after the first `WindowSizeMsg`
(`ready` false) and after every `NewMessageMsg`; `UserJoinedMsg` and `UserLeftMsg` keep
the bounds when they held before; a later `WindowSizeMsg` keeps them when the new
viewport height is not larger than the old one, and a `MessagesMsg` keeps them when the
new content has at least as many lines as the old one. -/
theorem offset_bounds (env : Env) (m : Model) :
    (∀ w h, m.ready = false →
        ((m.Update env (tea.Msg.WindowSizeMsg w h)).model).offsetInBounds)
    ∧ (∀ sender text, ((m.Update env (tea.Msg.NewMessageMsg sender text)).model).offsetInBounds)
    ∧ (∀ username, m.offsetInBounds →
        ((m.Update env (tea.Msg.UserJoinedMsg username)).model).offsetInBounds
        ∧ ((m.Update env (tea.Msg.UserLeftMsg username)).model).offsetInBounds)
    ∧ (∀ w h, m.ready = true → m.offsetInBounds →
        h - (lipgloss.Height (m.headerView env) + lipgloss.Height (m.footerView env))
          ≤ m.viewport.Height →
        ((m.Update env (tea.Msg.WindowSizeMsg w h)).model).offsetInBounds)
    ∧ (∀ msgs, m.offsetInBounds →
        m.contentHeight ≤ ((m.Update env (tea.Msg.MessagesMsg msgs)).model).contentHeight →
        ((m.Update env (tea.Msg.MessagesMsg msgs)).model).offsetInBounds) := by
  refine ⟨?_, ?_, ?_, ?_, ?_⟩
  · intro w h hready
    have hv : ((m.Update env (tea.Msg.WindowSizeMsg w h)).model).viewport.YOffset = 0 := by
      simp only [Model.Update, hready]
      rw [route_viewport_of_not_key _ _ (by intro k hk; cases hk)]
      simp only [Bool.not_false, if_true, viewport.YOffset_SetContent, viewport.New]
      have hpos := lipgloss.Height_pos m.content
      rw [if_neg (by omega)]
    unfold Model.offsetInBounds
    rw [hv]
    exact ⟨le_refl 0, le_max_left _ _⟩
  · intro sender text
    unfold Model.offsetInBounds Model.contentHeight
    rw [NewMessageMsg_offset, NewMessageMsg_model]
    simp only [viewport.Model.SetYOffset, viewport.Height_SetContent]
    exact viewport.clamp_bounds _ _ (le_max_left _ _)
  · intro username hinv
    unfold Model.offsetInBounds Model.contentHeight at hinv ⊢
    constructor
    · simp only [Model.Update]
      rw [viewport.Update_of_not_key _ _ (by intro k hk; cases hk)]
      simp only [viewport.YOffset_SetContent, viewport.Height_SetContent,
        lipgloss.Height_append_line]
      have hpos := lipgloss.Height_pos (joinedFormat env username)
      split <;> omega
    · simp only [Model.Update]
      rw [viewport.Update_of_not_key _ _ (by intro k hk; cases hk)]
      simp only [viewport.YOffset_SetContent, viewport.Height_SetContent,
        lipgloss.Height_append_line]
      have hpos := lipgloss.Height_pos (leftFormat env username)
      split <;> omega
  · intro w h hready hinv hle
    unfold Model.offsetInBounds Model.contentHeight at hinv ⊢
    simp only [Model.Update, hready]
    rw [route_viewport_of_not_key _ _ (by intro k hk; cases hk), route_content]
    simp only [Bool.not_true, Bool.false_eq_true, if_false]
    omega
  · intro msgs hinv hle
    simp only [Model.offsetInBounds, Model.contentHeight] at hinv hle ⊢
    simp only [Model.Update] at hle ⊢
    rw [viewport.Update_of_not_key _ _ (by intro k hk; cases hk)]
    simp only [viewport.YOffset_SetContent, viewport.Height_SetContent]
    split <;> omega

/-- Witness of C3 (amended): the first resize of the initial model, a new message and a
join at the bottom of `bottomModel`, a later resize to fewer rows and a longer backlog
all end within bounds. -/
theorem offset_bounds_witness :
    (initialModel plainEnv).ready = false
      ∧ bottomModel.ready = true
      ∧ bottomModel.offsetInBounds
      ∧ (8 : Int) - (lipgloss.Height (bottomModel.headerView plainEnv)
            + lipgloss.Height (bottomModel.footerView plainEnv))
          ≤ bottomModel.viewport.Height
      ∧ bottomModel.contentHeight
          ≤ ((bottomModel.Update plainEnv
              (tea.Msg.MessagesMsg (sampleBacklog 30))).model).contentHeight
      ∧ (((initialModel plainEnv).Update plainEnv
            (tea.Msg.WindowSizeMsg 80 12)).model).offsetInBounds
      ∧ ((bottomModel.Update plainEnv (tea.Msg.NewMessageMsg "alice" "ok")).model).offsetInBounds
      ∧ ((bottomModel.Update plainEnv (tea.Msg.UserJoinedMsg "dave")).model).offsetInBounds
      ∧ ((bottomModel.Update plainEnv (tea.Msg.UserLeftMsg "dave")).model).offsetInBounds
      ∧ ((bottomModel.Update plainEnv (tea.Msg.WindowSizeMsg 80 8)).model).offsetInBounds
      ∧ ((bottomModel.Update plainEnv
            (tea.Msg.MessagesMsg (sampleBacklog 30))).model).offsetInBounds :=
  have hb : bottomModel.offsetInBounds := by
    simp only [Model.offsetInBounds]
    decide
  ⟨by decide, by decide, hb, by decide, by decide,
    (offset_bounds plainEnv (initialModel plainEnv)).1 80 12 (by decide),
    (offset_bounds plainEnv bottomModel).2.1 "alice" "ok",
    ((offset_bounds plainEnv bottomModel).2.2.1 "dave" hb).1,
    ((offset_bounds plainEnv bottomModel).2.2.1 "dave" hb).2,
    (offset_bounds plainEnv bottomModel).2.2.2.1 80 8 (by decide) hb (by decide),
    (offset_bounds plainEnv bottomModel).2.2.2.2 (sampleBacklog 30) hb (by decide)⟩

/-! ## calcExcess (C4) -/

/-- C4, as stated, fails: for the initial model (one line of content, 10 visible rows)
`calcExcess` returns -9, not 0. -/
theorem calcExcess_negative :
    (initialModel plainEnv).contentHeight = 1
      ∧ (initialModel plainEnv).visibleHeight plainEnv = 10
      ∧ (initialModel plainEnv).calcExcess plainEnv = -9
      ∧ (initialModel plainEnv).calcExcess plainEnv
          ≠ max 0 ((initialModel plainEnv).contentHeight
              - (initialModel plainEnv).visibleHeight plainEnv) := by
  decide

/-- C4 (amended): for every model, `calcExcess` returns `contentHeight - visibleHeight`
without a floor at zero; it equals `max(0, contentHeight - visibleHeight)` exactly when
`visibleHeight ≤ contentHeight`, and is negative when the content is shorter than the
visible height. -/
theorem calcExcess_unfloored (env : Env) (m : Model) :
    m.calcExcess env = m.contentHeight - m.visibleHeight env
      ∧ (m.calcExcess env = max 0 (m.contentHeight - m.visibleHeight env)
          ↔ m.visibleHeight env ≤ m.contentHeight)
      ∧ (m.calcExcess env < 0 ↔ m.contentHeight < m.visibleHeight env) := by
  rw [calcExcess_eq_sub]
  omega

/-! ## The scroll keys (C5) -/

/-- C5, the code on the scroll keys: for every model in VIEW mode, `Update` on the key
`g` leaves the offset at 0, and `Update` on the key `G` leaves the offset at
`calcExcess()`, that is at `contentHeight - visibleHeight` with no floor and no clamp;
this is the excess `max(0, contentHeight - visibleHeight)` when the content has at least
as many lines as the visible height, and a negative offset when it has fewer. -/
theorem scroll_bottom_unclamped (env : Env) (m : Model) (hview : m.typing = false) :
    ((m.Update env (tea.Msg.KeyMsg (tea.KeyMsg.runes ['g']))).model).viewport.YOffset = 0
      ∧ ((m.Update env (tea.Msg.KeyMsg (tea.KeyMsg.runes ['G']))).model).viewport.YOffset
          = m.contentHeight - m.visibleHeight env
      ∧ (m.visibleHeight env ≤ m.contentHeight →
          ((m.Update env (tea.Msg.KeyMsg (tea.KeyMsg.runes ['G']))).model).viewport.YOffset
            = m.excess env)
      ∧ (m.contentHeight < m.visibleHeight env →
          ((m.Update env (tea.Msg.KeyMsg (tea.KeyMsg.runes ['G']))).model).viewport.YOffset
            < 0) := by
  have hG : ((m.Update env (tea.Msg.KeyMsg (tea.KeyMsg.runes ['G']))).model).viewport.YOffset
      = m.contentHeight - m.visibleHeight env := by
    rw [← calcExcess_eq_sub]
    simp [Model.Update, tea.KeyMsg.String, hview, Model.route, viewport.Model.Update,
      Model.calcExcess, Model.headerView, Model.footerView]
  refine ⟨?_, hG, ?_, ?_⟩
  · simp [Model.Update, tea.KeyMsg.String, hview, Model.route, viewport.Model.Update]
  · intro hle
    rw [hG]
    unfold Model.excess
    omega
  · intro hlt
    rw [hG]
    omega

/-- Witness of C5, the failing input and the scenario of the spec: on `shortModel` (VIEW
mode, one line in 10 visible rows, excess 0) `G` leaves the offset at -9, the offset is
still -9 after a following `UserJoinedMsg`, while the `NewMessageMsg` path, which goes
through the clamping `SetYOffset`, gives 0 at the same state; on `bottomModel` (10
visible rows, 25 lines, offset 15) `g` gives 0 and a following `G` gives 15. -/
theorem scroll_bottom_unclamped_witness :
    shortModel.typing = false
      ∧ shortModel.contentHeight < shortModel.visibleHeight plainEnv
      ∧ shortModel.excess plainEnv = 0
      ∧ ((shortModel.Update plainEnv
            (tea.Msg.KeyMsg (tea.KeyMsg.runes ['G']))).model).viewport.YOffset = -9
      ∧ ((shortModel.Update plainEnv
            (tea.Msg.KeyMsg (tea.KeyMsg.runes ['G']))).model).viewport.YOffset < 0
      ∧ (shortModel.run plainEnv
          [tea.Msg.KeyMsg (tea.KeyMsg.runes ['G']), tea.Msg.UserJoinedMsg "bob"]
          ).viewport.YOffset = -9
      ∧ ((shortModel.Update plainEnv
            (tea.Msg.NewMessageMsg "bob" "yo")).model).viewport.YOffset = 0
      ∧ bottomModel.typing = false
      ∧ bottomModel.visibleHeight plainEnv = 10
      ∧ bottomModel.contentHeight = 25
      ∧ bottomModel.viewport.YOffset = 15
      ∧ ((bottomModel.Update plainEnv
            (tea.Msg.KeyMsg (tea.KeyMsg.runes ['g']))).model).viewport.YOffset = 0
      ∧ ((((bottomModel.Update plainEnv (tea.Msg.KeyMsg (tea.KeyMsg.runes ['g']))).model).Update
            plainEnv (tea.Msg.KeyMsg (tea.KeyMsg.runes ['G']))).model).viewport.YOffset = 15 :=
  ⟨by decide, by decide, by decide,
    (scroll_bottom_unclamped plainEnv shortModel (by decide)).2.1.trans (by decide),
    (scroll_bottom_unclamped plainEnv shortModel (by decide)).2.2.2 (by decide),
    by decide, by decide, by decide, by decide, by decide, by decide,
    (scroll_bottom_unclamped plainEnv bottomModel (by decide)).1,
    ((scroll_bottom_unclamped plainEnv
        ((bottomModel.Update plainEnv (tea.Msg.KeyMsg (tea.KeyMsg.runes ['g']))).model)
        (by decide)).2.2.1 (by decide)).trans (by decide)⟩

/-! ## Mode entry (C6) -/

/-- C6, the code at the failing input: for every model in VIEW mode, the key `i`
switches to COMPOSE with the buffer unchanged, and when the next key is `g`, `G`, `h`
or `H` the buffer is still unchanged afterwards and `firstLetter` is still set: these
cases of the switch do not clear `firstLetter` while typing, so the tail of `Update`
does not pass the key to the text input. -/
theorem entry_key_then_scroll_key (env : Env) (m : Model) (c : Char)
    (hview : m.typing = false) (hc : c = 'g' ∨ c = 'G' ∨ c = 'h' ∨ c = 'H') :
    ((m.Update env (tea.Msg.KeyMsg (tea.KeyMsg.runes ['i']))).model).typing = true
      ∧ ((m.Update env (tea.Msg.KeyMsg (tea.KeyMsg.runes ['i']))).model).input.Value
          = m.input.Value
      ∧ ((((m.Update env (tea.Msg.KeyMsg (tea.KeyMsg.runes ['i']))).model).Update env
            (tea.Msg.KeyMsg (tea.KeyMsg.runes [c]))).model).input.Value = m.input.Value
      ∧ ((((m.Update env (tea.Msg.KeyMsg (tea.KeyMsg.runes ['i']))).model).Update env
            (tea.Msg.KeyMsg (tea.KeyMsg.runes [c]))).model).firstLetter = true := by
  have hi : (m.Update env (tea.Msg.KeyMsg (tea.KeyMsg.runes ['i']))).model
      = { m with typing := true, input := m.input.Focus, firstLetter := true } := by
    simp [Model.Update, tea.KeyMsg.String, hview, Model.route]
  rw [hi]
  refine ⟨rfl, rfl, ?_, ?_⟩
  · rcases hc with h | h | h | h <;> subst h <;>
      simp [Model.Update, tea.KeyMsg.String, Model.route, textinput.Model.Focus,
        textinput.Model.Value]
  · rcases hc with h | h | h | h <;> subst h <;>
      simp [Model.Update, tea.KeyMsg.String, Model.route]

/-- Witness of C6: from the initial model, `i` then `g` leaves the buffer empty, and so
does `i`, `g`, `h`, while `i` then `a` gives the buffer `a`. -/
theorem entry_key_then_scroll_key_witness :
    (initialModel plainEnv).typing = false
      ∧ (initialModel plainEnv).input.Value = ""
      ∧ ((initialModel plainEnv).run plainEnv
          [tea.Msg.KeyMsg (tea.KeyMsg.runes ['i']), tea.Msg.KeyMsg (tea.KeyMsg.runes ['a'])]
          ).input.Value = "a"
      ∧ ((initialModel plainEnv).run plainEnv
          [tea.Msg.KeyMsg (tea.KeyMsg.runes ['i']), tea.Msg.KeyMsg (tea.KeyMsg.runes ['g']),
            tea.Msg.KeyMsg (tea.KeyMsg.runes ['h'])]).input.Value = ""
      ∧ (((((initialModel plainEnv).Update plainEnv
            (tea.Msg.KeyMsg (tea.KeyMsg.runes ['i']))).model).Update plainEnv
            (tea.Msg.KeyMsg (tea.KeyMsg.runes ['g']))).model).input.Value
          = (initialModel plainEnv).input.Value :=
  ⟨by decide, by decide, by decide, by decide,
    (entry_key_then_scroll_key plainEnv (initialModel plainEnv) 'g' (by decide)
      (Or.inl rfl)).2.2.1⟩

/-! ## Submit (C7, C8) -/

/-- C7: for every model in COMPOSE mode whose buffer holds a non-empty string, `Update`
on the key `enter` writes exactly one value to the send channel, the `SendMessage` with
the current `chatName` as room and the buffer as content, leaves the buffer empty and
leaves `typing` true. -/
theorem submit_sends_once (env : Env) (m : Model) (htyping : m.typing = true)
    (_hne : m.input.Value ≠ "") :
    (m.Update env (tea.Msg.KeyMsg tea.KeyMsg.enter)).sent
        = [{ Room := m.chatName, Content := m.input.Value }]
      ∧ ((m.Update env (tea.Msg.KeyMsg tea.KeyMsg.enter)).model).input.Value = ""
      ∧ ((m.Update env (tea.Msg.KeyMsg tea.KeyMsg.enter)).model).typing = true := by
  refine ⟨?_, ?_, ?_⟩
  · simp [Model.Update, tea.KeyMsg.String]
  · simp only [Model.Update, tea.KeyMsg.String]
    simp only [String.reduceEq, or_self, if_false, if_true, Model.route, htyping]
    split
    · simp only [textinput.Update_enter_Value, textinput.SetValue_empty_Value]
    · exact textinput.SetValue_empty_Value _
  · simp only [Model.Update, tea.KeyMsg.String]
    simp only [String.reduceEq, or_self, if_false, if_true, Model.route, htyping]
    split <;> rfl

/-- Witness of C7: in room `lobby` with the buffer `yo`, `enter` sends `yo` to `lobby`
once and empties the buffer. -/
theorem submit_sends_once_witness :
    composeModel.typing = true
      ∧ composeModel.input.Value ≠ ""
      ∧ (composeModel.Update plainEnv (tea.Msg.KeyMsg tea.KeyMsg.enter)).sent
          = [{ Room := "lobby", Content := "yo" }]
      ∧ ((composeModel.Update plainEnv (tea.Msg.KeyMsg tea.KeyMsg.enter)).model).input.Value
          = ""
      ∧ ((composeModel.Update plainEnv (tea.Msg.KeyMsg tea.KeyMsg.enter)).model).typing
          = true :=
  ⟨by decide, by decide,
    (submit_sends_once plainEnv composeModel (by decide) (by decide)).1.trans (by decide),
    (submit_sends_once plainEnv composeModel (by decide) (by decide)).2.1,
    (submit_sends_once plainEnv composeModel (by decide) (by decide)).2.2⟩

/-- C8, as stated, fails: in COMPOSE mode in room `lobby` with an empty buffer, `enter`
writes one `SendMessage` (with empty content) to the send channel, not none. -/
theorem empty_submit_not_silent :
    emptyComposeModel.typing = true
      ∧ emptyComposeModel.input.Value = ""
      ∧ (emptyComposeModel.Update plainEnv (tea.Msg.KeyMsg tea.KeyMsg.enter)).sent
          = [{ Room := "lobby", Content := "" }]
      ∧ (emptyComposeModel.Update plainEnv (tea.Msg.KeyMsg tea.KeyMsg.enter)).sent ≠ [] := by
  decide

/-- C8 (amended): for every model whose compose buffer is empty, `Update` on the key
`enter` writes exactly one value to the send channel: the `SendMessage` with the current
`chatName` as room and the empty string as content. -/
theorem empty_submit_sends (env : Env) (m : Model) (hempty : m.input.Value = "") :
    (m.Update env (tea.Msg.KeyMsg tea.KeyMsg.enter)).sent
      = [{ Room := m.chatName, Content := "" }] := by
  simp [Model.Update, tea.KeyMsg.String, hempty]

/-- Witness of C8 (amended): the initial model has an empty buffer and no room; `enter`
sends one message with empty room and content. -/
theorem empty_submit_sends_witness :
    (initialModel plainEnv).input.Value = ""
      ∧ ((initialModel plainEnv).Update plainEnv (tea.Msg.KeyMsg tea.KeyMsg.enter)).sent
          = [{ Room := (initialModel plainEnv).chatName, Content := "" }] :=
  ⟨by decide, empty_submit_sends plainEnv (initialModel plainEnv) (by decide)⟩

/-! ## Escape (C9) -/

/-- C9, as stated, fails: in COMPOSE mode with the buffer `yo`, `esc` leaves the buffer
at `yo`; it is not cleared. -/
theorem escape_buffer_not_cleared :
    composeModel.typing = true
      ∧ composeModel.input.Value = "yo"
      ∧ ((composeModel.Update plainEnv (tea.Msg.KeyMsg tea.KeyMsg.esc)).model).input.Value
          = "yo"
      ∧ ((composeModel.Update plainEnv (tea.Msg.KeyMsg tea.KeyMsg.esc)).model).input.Value
          ≠ "" := by
  decide

/-- C9 (amended): for every model in COMPOSE mode, `Update` on the key `esc` returns a
model in VIEW mode (`typing` false) with the text input unfocused and the compose buffer
unchanged. -/
theorem escape_keeps_buffer (env : Env) (m : Model) (_htyping : m.typing = true) :
    ((m.Update env (tea.Msg.KeyMsg tea.KeyMsg.esc)).model).typing = false
      ∧ ((m.Update env (tea.Msg.KeyMsg tea.KeyMsg.esc)).model).input.focus = false
      ∧ ((m.Update env (tea.Msg.KeyMsg tea.KeyMsg.esc)).model).input.Value
          = m.input.Value := by
  simp [Model.Update, tea.KeyMsg.String, Model.route, textinput.Model.Blur,
    textinput.Model.Value]

/-- Witness of C9 (amended): `composeModel` is focused and typing; after `esc` it is
neither, and the buffer is the same. -/
theorem escape_keeps_buffer_witness :
    composeModel.typing = true
      ∧ composeModel.input.focus = true
      ∧ ((composeModel.Update plainEnv (tea.Msg.KeyMsg tea.KeyMsg.esc)).model).typing = false
      ∧ ((composeModel.Update plainEnv (tea.Msg.KeyMsg tea.KeyMsg.esc)).model).input.focus
          = false
      ∧ ((composeModel.Update plainEnv (tea.Msg.KeyMsg tea.KeyMsg.esc)).model).input.Value
          = composeModel.input.Value :=
  ⟨by decide, by decide, (escape_keeps_buffer plainEnv composeModel (by decide)).1,
    (escape_keeps_buffer plainEnv composeModel (by decide)).2.1,
    (escape_keeps_buffer plainEnv composeModel (by decide)).2.2⟩

/-! ## Keys in VIEW mode (C10) -/

/-- C10, the code on key presses: for every model, in either mode, a key press whose
string is not `enter` writes nothing to the send channel, so a send is only ever issued
on submit; in VIEW mode such a key press also leaves the value of the compose buffer
unchanged. But the `enter` case has no check of `typing`: in VIEW mode too, a key press
whose string is `enter` writes the `SendMessage` with the current `chatName` and the
buffer to the send channel and leaves the buffer empty. -/
theorem keys_send_only_on_enter (env : Env) (m : Model) (k : tea.KeyMsg) :
    (k.String ≠ "enter" → (m.Update env (tea.Msg.KeyMsg k)).sent = [])
      ∧ (m.typing = false → k.String ≠ "enter" →
          ((m.Update env (tea.Msg.KeyMsg k)).model).input.Value = m.input.Value)
      ∧ (m.typing = false → k.String = "enter" →
          (m.Update env (tea.Msg.KeyMsg k)).sent
              = [{ Room := m.chatName, Content := m.input.Value }]
            ∧ ((m.Update env (tea.Msg.KeyMsg k)).model).input.Value = "") := by
  refine ⟨?_, ?_, ?_⟩
  · intro hk
    simp only [Model.Update]
    split_ifs <;> simp_all
  · intro hview hk
    simp only [Model.Update]
    split_ifs <;>
      simp_all [Model.route, textinput.Model.Focus, textinput.Model.Blur,
        textinput.Model.Value]
  · intro hview hk
    simp only [Model.Update, hk]
    simp only [String.reduceEq, or_self, if_false, if_true, Model.route, hview]
    exact ⟨trivial, textinput.SetValue_empty_Value _⟩

/-- Witness of C10, the failing input: `viewModelWithBuffer` is in VIEW mode in room
`lobby` with the buffer `yo` left from an earlier COMPOSE; the key `j` sends nothing and
leaves the buffer, while `enter` sends `yo` to `lobby` and empties the buffer. -/
theorem keys_send_only_on_enter_witness :
    viewModelWithBuffer.typing = false
      ∧ viewModelWithBuffer.input.Value = "yo"
      ∧ (tea.KeyMsg.runes ['j']).String ≠ "enter"
      ∧ tea.KeyMsg.enter.String = "enter"
      ∧ (viewModelWithBuffer.Update plainEnv
          (tea.Msg.KeyMsg (tea.KeyMsg.runes ['j']))).sent = []
      ∧ ((viewModelWithBuffer.Update plainEnv
          (tea.Msg.KeyMsg (tea.KeyMsg.runes ['j']))).model).input.Value
          = viewModelWithBuffer.input.Value
      ∧ (viewModelWithBuffer.Update plainEnv (tea.Msg.KeyMsg tea.KeyMsg.enter)).sent
          = [{ Room := "lobby", Content := "yo" }]
      ∧ (viewModelWithBuffer.Update plainEnv (tea.Msg.KeyMsg tea.KeyMsg.enter)).sent ≠ []
      ∧ ((viewModelWithBuffer.Update plainEnv
          (tea.Msg.KeyMsg tea.KeyMsg.enter)).model).input.Value = "" :=
  ⟨by decide, by decide, by decide, by decide,
    (keys_send_only_on_enter plainEnv viewModelWithBuffer (tea.KeyMsg.runes ['j'])).1
      (by decide),
    (keys_send_only_on_enter plainEnv viewModelWithBuffer (tea.KeyMsg.runes ['j'])).2.1
      (by decide) (by decide),
    ((keys_send_only_on_enter plainEnv viewModelWithBuffer tea.KeyMsg.enter).2.2
      (by decide) (by decide)).1.trans (by decide),
    by decide,
    ((keys_send_only_on_enter plainEnv viewModelWithBuffer tea.KeyMsg.enter).2.2
      (by decide) (by decide)).2⟩
